import Mathlib

/-!
Verification of the gobackend repository: a shallow embedding of
the IAM policy grant merge (gcputils/serviceaccounts.go), the M2M
service-account provisioning saga, the GCP Identity Platform token
authenticator, and the env-var unmarshaller (environ/unmarshal.go),
with theorems settling the specification's testable properties.
-/

/-- Model of a Go error value: `msg` is an `errors.New` leaf, `wrap` is
`fmt.Errorf("<op>..: %w", cause)` keeping the context string and the wrapped
cause, and `join` is `errors.Join` over a list of collected errors. -/
inductive GoError where
  | msg : String → GoError
  | wrap : String → GoError → GoError
  | join : List GoError → GoError

namespace Gcputils

/-- One IAM policy binding (`iampb.Binding`): a role name and the ordered
list of member strings, as in `policy.Bindings[i]`. -/
structure Binding where
  role : String
  members : List String
deriving DecidableEq

/-- An IAM policy's binding sequence (`policy.Bindings`). -/
abbrev Policy := List Binding

/-- The inner-loop body of `grantRolesToServiceAccount` for one binding:
scan `binding.Members` for `member` and append it only when absent
(lines 131-140 of serviceaccounts.go). -/
def addMember (member : String) (b : Binding) : Binding :=
  if member ∈ b.members then b else { b with members := b.members ++ [member] }

/-- One iteration of the outer role loop of `grantRolesToServiceAccount`
(lines 127-150): find the first binding whose `Role` equals `roleName` and
add the member to it; when no binding matches, append a fresh binding
`{Role: roleName, Members: [member]}` at the end. -/
def grantOneRole (member roleName : String) : Policy → Policy
  | [] => [⟨roleName, [member]⟩]
  | b :: bs =>
    if b.role = roleName then addMember member b :: bs
    else b :: grantOneRole member roleName bs

/-- The policy-mutation step of `grantRolesToServiceAccount`
(lines 126-151): fold `grantOneRole` over the requested roles in order. -/
def grantMerge (member : String) (roles : List String) (policy : Policy) : Policy :=
  roles.foldl (fun p r => grantOneRole member r p) policy

/-- First binding in the policy whose role equals `r`, mirroring the
search order of the inner loop over `policy.Bindings`. -/
def findBinding : Policy → String → Option Binding
  | [], _ => none
  | b :: bs, r => if b.role = r then some b else findBinding bs r

/-- The member list of the first binding for role `r` (empty when the role
has no binding). -/
def membersOfRole (p : Policy) (r : String) : List String :=
  match findBinding p r with
  | none => []
  | some b => b.members


end Gcputils
namespace Gcputils

/-- Relation between a pre-existing binding and its successor in the merged
policy: the role is unchanged and the member list is either untouched or has
the new member appended at the end (only when it was absent). -/
def bindingExtends (m : String) (b b' : Binding) : Prop :=
  b'.role = b.role ∧
    (b'.members = b.members ∨ (m ∉ b.members ∧ b'.members = b.members ++ [m]))

/-- The invariant of an AuthorizationPolicy: each role appears in at most one
binding, and no binding's member list contains duplicates. -/
def policyInvariant (p : Policy) : Prop :=
  (p.map Binding.role).Nodup ∧ ∀ b ∈ p, b.members.Nodup

instance (p : Policy) : Decidable (policyInvariant p) := by
  unfold policyInvariant; infer_instance

end Gcputils
namespace Gcputils

/-- A created service identity (`iamadminpb.ServiceAccount` as used by
`NewM2MServiceAccount`): resource name, email and display name. -/
structure ServiceAccount where
  name : String
  email : String
  displayName : String
deriving DecidableEq

/-- The `CreateServiceAccountRequest` assembled at lines 42-49 of
serviceaccounts.go. -/
structure CreateServiceAccountRequest where
  name : String
  displayName : String
  description : String
  accountId : String
deriving DecidableEq

/-- The `CreateServiceAccountKeyRequest` assembled at lines 63-68; the
algorithm and private-key type are fixed constants. -/
structure CreateServiceAccountKeyRequest where
  name : String
  keyAlgorithm : String
  privateKeyType : String
deriving DecidableEq

/-- A generated service-account key: resource name and the private key
material bytes (`PrivateKeyData`). -/
structure ServiceAccountKey where
  name : String
  privateKeyData : List Nat
deriving DecidableEq

/-- The remote IAM admin client, modelled as an oracle: each operation
either returns its result or fails with an error. -/
structure IamClient where
  createServiceAccount : CreateServiceAccountRequest → Except GoError ServiceAccount
  createServiceAccountKey : CreateServiceAccountKeyRequest → Except GoError ServiceAccountKey
  deleteServiceAccount : String → Except GoError Unit

/-- One remote call issued by `NewM2MServiceAccount`, recorded in order. -/
inductive IamCall where
  | createSA : CreateServiceAccountRequest → IamCall
  | createKey : CreateServiceAccountKeyRequest → IamCall
  | deleteSA : String → IamCall
deriving DecidableEq

/-- Whether a recorded call is a `DeleteServiceAccount` call. -/
def IamCall.isDelete : IamCall → Bool
  | .deleteSA _ => true
  | _ => false

/-- The output record of provisioning (`M2MServiceAccount` struct, lines
16-25); `privateKey` holds the byte string assigned to the `PrivateKey`
field (a Go string is a byte sequence). -/
structure M2MServiceAccount where
  email : String
  privateKey : List Nat
  keyID : String
  displayName : String
  serviceAccountID : String
deriving DecidableEq

/-- The create request built from the arguments of `NewM2MServiceAccount`
(lines 41-49): parent `projects/<projectID>`, fixed description template,
account id `clientID`. -/
def mkCreateServiceAccountRequest
    (projectID clientID displayName : String) : CreateServiceAccountRequest :=
  { name := "projects/" ++ projectID
    displayName := displayName
    description := "M2M client SA for " ++ clientID
    accountId := clientID }

/-- The key request built for the created identity (lines 63-68). -/
def mkCreateServiceAccountKeyRequest (saName : String) :
    CreateServiceAccountKeyRequest :=
  { name := saName
    keyAlgorithm := "KEY_ALG_RSA_2048"
    privateKeyType := "TYPE_GOOGLE_CREDENTIALS_FILE" }

/-- Shallow embedding of `NewM2MServiceAccount` (lines 29-98), returning the
function's result together with the ordered trace of remote calls it issues.
`clientInit` models `iamadmin.NewIamClient`. On the compensation path the
delete call is recorded in the trace; its outcome is only logged by the code,
so it does not appear in the returned value. Errors mirror the `fmt.Errorf`
wrapping of the code. -/
def NewM2MServiceAccount (clientInit : Except GoError IamClient)
    (projectID clientID displayName : String) :
    Except GoError M2MServiceAccount × List IamCall :=
  match clientInit with
  | .error e => (.error (.wrap "iamadmin.NewIAMClient" e), [])
  | .ok c =>
    let saRequest := mkCreateServiceAccountRequest projectID clientID displayName
    match c.createServiceAccount saRequest with
    | .error e => (.error (.wrap "CreateServiceAccount" e), [.createSA saRequest])
    | .ok createdSA =>
      let keyRequest := mkCreateServiceAccountKeyRequest createdSA.name
      match c.createServiceAccountKey keyRequest with
      | .error e =>
        (.error (.wrap "CreateServiceAccountKey" e),
          [.createSA saRequest, .createKey keyRequest, .deleteSA createdSA.name])
      | .ok generatedKey =>
        (.ok { email := createdSA.email
               privateKey := generatedKey.privateKeyData
               keyID := generatedKey.name
               displayName := createdSA.displayName
               serviceAccountID := clientID },
          [.createSA saRequest, .createKey keyRequest])

/-- Value of the standard Base64 alphabet at index `n` (as an ASCII byte). -/
def b64char (n : Nat) : Nat :=
  if n < 26 then 65 + n
  else if n < 52 then 97 + (n - 26)
  else if n < 62 then 48 + (n - 52)
  else if n = 62 then 43
  else 47

/-- Standard Base64 encoding with padding (RFC 4648, as produced by Go's
`base64.StdEncoding`) of a byte sequence, as an ASCII byte sequence. -/
def base64Encode : List Nat → List Nat
  | [] => []
  | [a] => [b64char (a / 4), b64char (a % 4 * 16), 61, 61]
  | [a, b] =>
    [b64char (a / 4), b64char (a % 4 * 16 + b / 16), b64char (b % 16 * 4), 61]
  | a :: b :: c :: rest =>
    b64char (a / 4) :: b64char (a % 4 * 16 + b / 16) ::
      b64char (b % 16 * 4 + c / 64) :: b64char (c % 64) :: base64Encode rest

end Gcputils
namespace Authn

/-- The context key under which validated claims are attached
(`ClaimsContextKey`, line 18 of the authn source). -/
def ClaimsContextKey : String := "jwt_claims"

/-- The payload of a validated token as returned by `validator.Validate`:
issuer, subject and the decoded claim set. -/
structure Payload where
  issuer : String
  subject : String
  claims : List (String × String)
deriving DecidableEq

/-- A call context: the resolved gRPC method name (`grpc.Method`), the bearer
token extractable from the call metadata (`auth.AuthFromMD`, an external
collaborator, modelled by its result), and the context's key-value pairs
(`context.WithValue` prepends). -/
structure Ctx where
  method : Option String
  bearerToken : Option String
  values : List (String × List (String × String))
deriving DecidableEq

/-- gRPC status codes used by the authenticator. -/
inductive StatusCode where
  | unauthenticated
  | internal
deriving DecidableEq

/-- A `status.Error(code, message)` value. -/
structure GrpcStatus where
  code : StatusCode
  message : String
deriving DecidableEq

/-- The external token validator (`idtoken.Validator`): given a token and the
expected audience, returns the decoded payload or fails. -/
structure TokenValidator where
  validate : String → String → Except GoError Payload

/-- `GcpIdentifyPlatformAuthenticatorConfig` (lines 36-39). -/
structure GcpIdentifyPlatformAuthenticatorConfig where
  expectedAudience : String
  gcpProjectId : String
deriving DecidableEq

/-- `GcpIdentifyPlatformAuthenticator` (lines 43-49); `publicMethods` models
the Go `map[string]bool` as an association list, with the code's key-presence
test. -/
structure GcpIdentifyPlatformAuthenticator where
  expectedAudience : String
  expectedIssuer : String
  publicMethods : List (String × Bool)

/-- `ErrProjectIdMissing` (lines 23-25). -/
def ErrProjectIdMissing : GoError :=
  .msg "authn.GcpIdentifyProvider, GCP Project ID missing"

/-- `ErrExpectedAudMissing` (lines 29-31). -/
def ErrExpectedAudMissing : GoError :=
  .msg "authn.GcpIdentifyPlatformAuthenticator, expected token Audience missing"

/-- Models the guard `strings.TrimSpace(s) == ""`: the string has no
non-whitespace character. -/
def isBlank (s : String) : Bool := s.toList.all Char.isWhitespace

/-- Shallow embedding of `NewGcpIdentityPlatformValidator` (lines 53-70). -/
def NewGcpIdentityPlatformValidator
    (conf : GcpIdentifyPlatformAuthenticatorConfig)
    (publicMethods : List (String × Bool)) :
    Except GoError GcpIdentifyPlatformAuthenticator :=
  if isBlank conf.gcpProjectId then .error ErrProjectIdMissing
  else if isBlank conf.expectedAudience then .error ErrExpectedAudMissing
  else .ok
    { expectedIssuer := "https://securetoken.google.com/" ++ conf.gcpProjectId
      expectedAudience := conf.expectedAudience
      publicMethods := publicMethods }

/-- Result of `auth.AuthFromMD(ctx, "bearer")`: the bearer token when the
call metadata carries one, an error otherwise (the code only logs the error's
text, so its exact message is irrelevant). -/
def authFromMD (ctx : Ctx) : Except GoError String :=
  match ctx.bearerToken with
  | some token => .ok token
  | none => .error (.msg "Request unauthenticated with bearer")

/-- The token-validation path of `Authenticate` (lines 87-137): extract the
bearer token, construct the validator (`newValidator` models
`idtoken.NewValidator`), validate against the expected audience, check the
issuer, and on success attach the claims under `ClaimsContextKey`. -/
def authenticateToken (v : GcpIdentifyPlatformAuthenticator)
    (newValidator : Except GoError TokenValidator) (ctx : Ctx) :
    Except GrpcStatus Ctx :=
  match authFromMD ctx with
  | .error _ => .error ⟨.unauthenticated, "Authorization token not provided"⟩
  | .ok token =>
    match newValidator with
    | .error _ => .error ⟨.internal, "Authentication service error"⟩
    | .ok validator =>
      match validator.validate token v.expectedAudience with
      | .error _ => .error ⟨.unauthenticated, "Invalid authentication token"⟩
      | .ok payload =>
        if payload.issuer ≠ v.expectedIssuer then
          .error ⟨.unauthenticated, "Invalid token issuer"⟩
        else
          .ok { ctx with values := (ClaimsContextKey, payload.claims) :: ctx.values }

/-- Shallow embedding of `Authenticate` (lines 76-137): when the method name
resolves and is a key of `publicMethods` the context is returned unchanged
(lines 79-85), otherwise the token-validation path runs. -/
def Authenticate (v : GcpIdentifyPlatformAuthenticator)
    (newValidator : Except GoError TokenValidator) (ctx : Ctx) :
    Except GrpcStatus Ctx :=
  match ctx.method with
  | some mth =>
    if (v.publicMethods.lookup mth).isSome then .ok ctx
    else authenticateToken v newValidator ctx
  | none => authenticateToken v newValidator ctx

end Authn
namespace Environ

/-- The scalar kind of a struct field as dispatched by the `switch` on
`fieldType.Type.Kind()` (lines 73-116 of unmarshal.go); `float` and `int`
carry the type's bit size. -/
inductive FieldKind where
  | bool
  | str
  | float (bits : Nat)
  | int (bits : Nat)
  | unsupported
deriving DecidableEq

/-- One struct field as seen through reflection: whether it is settable,
the raw `env` tag value when present, its kind, and its type name (used in
error messages). -/
structure StructField where
  canSet : Bool
  envTag : Option String
  kind : FieldKind
  typeName : String
deriving DecidableEq

/-- The strconv coercion functions (`ParseBool`, `ParseFloat`, `ParseInt`),
external collaborators modelled as oracles; only their success or failure
matters to the error-collection behavior. -/
structure Parsers where
  parseBool : String → Except GoError Unit
  parseFloat : String → Nat → Except GoError Unit
  parseInt : String → Nat → Nat → Except GoError Unit

/-- `ErrMissingEnvVariable` (line 17). -/
def ErrMissingEnvVariable : GoError := .msg "environ, missing env variable"

/-- `ErrNotSupportedTypeFound` (line 20). -/
def ErrNotSupportedTypeFound : GoError := .msg "environ, env type not supported"

/-- `ErrMalformedTag` (line 22). -/
def ErrMalformedTag : GoError := .msg "environ, malformed tag"

/-- `strings.EqualFold` for the tag parts (over ASCII case folding). -/
def equalFold (a b : String) : Bool :=
  a.toList.map Char.toLower == b.toList.map Char.toLower

/-- Split a character list at every comma, keeping empty parts, with the
semantics of `strings.Split(s, ",")`. -/
def splitCommaChars : List Char → List (List Char)
  | [] => [[]]
  | c :: cs =>
    match splitCommaChars cs with
    | [] => [[c]]
    | g :: gs => if c = ',' then [] :: g :: gs else (c :: g) :: gs

/-- `strings.Split(value, ",")`. -/
def splitComma (value : String) : List String :=
  (splitCommaChars value.toList).map String.mk

/-- Shallow embedding of `parseTagValue` (lines 126-140): split on commas;
a part equal (case-insensitively) to "optional" sets the optional flag, the
first other part becomes the variable name, any further part marks the tag
malformed (the loop keeps going). Returns (envVar, optional, malformed). -/
def parseTagValue (value : String) : String × Bool × Bool :=
  (splitComma value).foldl
    (fun acc part =>
      if equalFold part "optional" then (acc.1, true, acc.2.2)
      else if acc.1 = "" then (part, acc.2.1, acc.2.2)
      else (acc.1, acc.2.1, true))
    ("", false, false)

/-- The `msgInvalidValueFmt` message (line 12). -/
def msgInvalidValue (val typeName : String) : String :=
  "invalid value \x27" ++ val ++ "\x27 for type \x27" ++ typeName ++ "\x27"

/-- The error contributed by one iteration of the field loop of `Unmarshal`
(lines 35-117): `none` when the field is skipped or coerces successfully,
`some e` with the wrapped error the code appends to `errs` otherwise. -/
def fieldError (env : List (String × String)) (ps : Parsers)
    (f : StructField) : Option GoError :=
  if !f.canSet then none
  else
    match f.envTag with
    | none => none
    | some tagEncoded =>
      let parsed := parseTagValue tagEncoded
      if parsed.2.2 then
        some (.wrap ("env struct tag \x27" ++ tagEncoded ++ "\x27 malformed")
          ErrMalformedTag)
      else
        match env.lookup parsed.1 with
        | none =>
          if !parsed.2.1 then
            some (.wrap ("required \x27" ++ parsed.1 ++ "\x27 missing")
              ErrMissingEnvVariable)
          else none
        | some val =>
          match f.kind with
          | .bool =>
            match ps.parseBool val with
            | .error e => some (.wrap (msgInvalidValue val f.typeName) e)
            | .ok _ => none
          | .str => none
          | .float bits =>
            match ps.parseFloat val bits with
            | .error e => some (.wrap (msgInvalidValue val f.typeName) e)
            | .ok _ => none
          | .int bits =>
            match ps.parseInt val 10 bits with
            | .error e => some (.wrap (msgInvalidValue val f.typeName) e)
            | .ok _ => none
          | .unsupported =>
            some (.wrap ("found type \x27" ++ f.typeName ++ "\x27 is not supported")
              ErrNotSupportedTypeFound)

/-- Shallow embedding of `Unmarshal` (lines 30-124): iterate over all fields
accumulating the per-field errors in order, then return `errors.Join` of them
when any occurred and nil (`none`) otherwise. Field-value assignment has no
bearing on the returned error and is not modelled. -/
def Unmarshal (env : List (String × String)) (ps : Parsers)
    (fields : List StructField) : Option GoError :=
  let errs := fields.foldl
    (fun errs f =>
      match fieldError env ps f with
      | some e => errs ++ [e]
      | none => errs) ([] : List GoError)
  if errs.length > 0 then some (.join errs) else none


end Environ

namespace Gcputils
theorem addMember_role (m : String) (b : Binding) : (addMember m b).role = b.role := by
  unfold addMember; split <;> rfl

theorem mem_addMember (m x : String) (b : Binding) :
    x ∈ (addMember m b).members ↔ x ∈ b.members ∨ x = m := by
  unfold addMember
  split
  · rename_i hm
    constructor
    · exact fun h => Or.inl h
    · rintro (h | rfl)
      · exact h
      · exact hm
  · simp

theorem findBinding_grantOneRole_self (m r : String) (p : Policy) :
    findBinding (grantOneRole m r p) r =
      some (addMember m ((findBinding p r).getD ⟨r, []⟩)) := by
  induction p with
  | nil => simp [grantOneRole, findBinding, addMember]
  | cons b bs ih =>
    by_cases hb : b.role = r
    · simp [grantOneRole, hb, findBinding, addMember_role, hb]
    · simp [grantOneRole, hb, findBinding, ih]

theorem findBinding_grantOneRole_other (m r r' : String) (p : Policy) (h : r' ≠ r) :
    findBinding (grantOneRole m r p) r' = findBinding p r' := by
  induction p with
  | nil => simp [grantOneRole, findBinding, Ne.symm h]
  | cons b bs ih =>
    by_cases hb : b.role = r
    · simp [grantOneRole, hb, findBinding, addMember_role, Ne.symm h]
    · by_cases hb' : b.role = r'
      · simp [grantOneRole, hb, findBinding, hb', h]
      · simp [grantOneRole, hb, findBinding, hb', ih]

theorem mem_membersOfRole_grantOneRole (m r r' x : String) (p : Policy) :
    x ∈ membersOfRole (grantOneRole m r' p) r ↔
      x ∈ membersOfRole p r ∨ (r = r' ∧ x = m) := by
  by_cases hr : r = r'
  · subst hr
    rw [membersOfRole, findBinding_grantOneRole_self]
    cases hf : findBinding p r with
    | none => simp [membersOfRole, hf, mem_addMember]
    | some b => simp [membersOfRole, hf, mem_addMember]
  · rw [membersOfRole, findBinding_grantOneRole_other m r' r p hr]
    simp [membersOfRole, hr]

theorem mem_membersOfRole_grantMerge (m r x : String) (roles : List String) (p : Policy) :
    x ∈ membersOfRole (grantMerge m roles p) r ↔
      x ∈ membersOfRole p r ∨ (r ∈ roles ∧ x = m) := by
  induction roles generalizing p with
  | nil => simp [grantMerge]
  | cons r₀ rest ih =>
    show x ∈ membersOfRole (grantMerge m rest (grantOneRole m r₀ p)) r ↔ _
    rw [ih, mem_membersOfRole_grantOneRole]
    constructor
    · rintro ((h | ⟨rfl, rfl⟩) | ⟨hr, rfl⟩)
      · exact Or.inl h
      · exact Or.inr ⟨List.mem_cons_self _ _, rfl⟩
      · exact Or.inr ⟨List.mem_cons_of_mem _ hr, rfl⟩
    · rintro (h | ⟨hr, rfl⟩)
      · exact Or.inl (Or.inl h)
      · rcases List.mem_cons.mp hr with rfl | hr
        · exact Or.inl (Or.inr ⟨rfl, rfl⟩)
        · exact Or.inr ⟨hr, rfl⟩

theorem grantOneRole_of_mem (m r : String) (p : Policy)
    (h : m ∈ membersOfRole p r) : grantOneRole m r p = p := by
  induction p with
  | nil => simp [membersOfRole, findBinding] at h
  | cons b bs ih =>
    by_cases hb : b.role = r
    · have hmem : m ∈ b.members := by
        simpa [membersOfRole, findBinding, hb] using h
      simp [grantOneRole, hb, addMember, hmem]
    · have h' : m ∈ membersOfRole bs r := by
        simpa [membersOfRole, findBinding, hb] using h
      simp [grantOneRole, hb, ih h']

theorem grantMerge_of_settled (m : String) (roles : List String) (p : Policy)
    (h : ∀ r ∈ roles, m ∈ membersOfRole p r) : grantMerge m roles p = p := by
  induction roles with
  | nil => rfl
  | cons r₀ rest ih =>
    have h0 : grantOneRole m r₀ p = p :=
      grantOneRole_of_mem m r₀ p (h r₀ (List.mem_cons_self _ _))
    show grantMerge m rest (grantOneRole m r₀ p) = p
    rw [h0]
    exact ih fun r hr => h r (List.mem_cons_of_mem _ hr)


theorem grantOneRole_newRegion (m r : String) (q : Policy)
    (h : ∀ b ∈ q, b.members = [m]) : ∀ b ∈ grantOneRole m r q, b.members = [m] := by
  induction q with
  | nil =>
    intro b hb
    simp only [grantOneRole, List.mem_singleton] at hb
    subst hb; rfl
  | cons b0 bs ih =>
    intro b hb
    by_cases hr : b0.role = r
    · simp only [grantOneRole, if_pos hr, List.mem_cons] at hb
      rcases hb with rfl | hb
      · have h0 : b0.members = [m] := h b0 (List.mem_cons_self _ _)
        simp [addMember, h0]
      · exact h b (List.mem_cons_of_mem _ hb)
    · simp only [grantOneRole, if_neg hr, List.mem_cons] at hb
      rcases hb with rfl | hb
      · exact h b (List.mem_cons_self _ _)
      · exact ih (fun x hx => h x (List.mem_cons_of_mem _ hx)) b hb

theorem grantOneRole_ext (m r : String) {p q₁ : Policy}
    (hf : List.Forall₂ (bindingExtends m) p q₁) :
    ∀ q₂ : Policy, (∀ b ∈ q₂, b.members = [m]) →
    ∃ q₁' q₂', grantOneRole m r (q₁ ++ q₂) = q₁' ++ q₂' ∧
      List.Forall₂ (bindingExtends m) p q₁' ∧ ∀ b ∈ q₂', b.members = [m] := by
  induction hf with
  | nil =>
    intro q₂ h₂
    exact ⟨[], grantOneRole m r q₂, by simp, List.Forall₂.nil,
      grantOneRole_newRegion m r q₂ h₂⟩
  | @cons b b' p' q₁' hbb' htail ih =>
    intro q₂ h₂
    by_cases hr : b'.role = r
    · refine ⟨addMember m b' :: q₁', q₂, by simp [grantOneRole, hr], ?_, h₂⟩
      refine List.Forall₂.cons ⟨by rw [addMember_role]; exact hbb'.1, ?_⟩ htail
      rcases hbb'.2 with heq | ⟨hnot, heq⟩
      · by_cases hm : m ∈ b.members
        · left; simp [addMember, heq, hm]
        · right; exact ⟨hm, by simp [addMember, heq, hm]⟩
      · right
        refine ⟨hnot, ?_⟩
        have hm : m ∈ b'.members := by simp [heq]
        simp [addMember, hm, heq]
    · obtain ⟨q₁'', q₂'', hEq, hF, hN⟩ := ih q₂ h₂
      refine ⟨b' :: q₁'', q₂'', ?_, List.Forall₂.cons hbb' hF, hN⟩
      simp [grantOneRole, hr, hEq]

theorem grantMerge_ext (m : String) (roles : List String) :
    ∀ (p q₁ q₂ : Policy), List.Forall₂ (bindingExtends m) p q₁ →
    (∀ b ∈ q₂, b.members = [m]) →
    ∃ q₁' q₂', grantMerge m roles (q₁ ++ q₂) = q₁' ++ q₂' ∧
      List.Forall₂ (bindingExtends m) p q₁' ∧ ∀ b ∈ q₂', b.members = [m] := by
  induction roles with
  | nil => exact fun p q₁ q₂ hf hn => ⟨q₁, q₂, rfl, hf, hn⟩
  | cons r rest ih =>
    intro p q₁ q₂ hf hn
    obtain ⟨q₁', q₂', hEq, hF, hN⟩ := grantOneRole_ext m r hf q₂ hn
    obtain ⟨q₁'', q₂'', hEq2, hF2, hN2⟩ := ih p q₁' q₂' hF hN
    refine ⟨q₁'', q₂'', ?_, hF2, hN2⟩
    show grantMerge m rest (grantOneRole m r (q₁ ++ q₂)) = _
    rw [hEq, hEq2]

theorem findBinding_eq_none_iff (p : Policy) (r : String) :
    findBinding p r = none ↔ r ∉ p.map Binding.role := by
  induction p with
  | nil => simp [findBinding]
  | cons b bs ih =>
    by_cases hb : b.role = r
    · simp [findBinding, hb]
    · simp [findBinding, hb, ih, Ne.symm hb]

theorem roles_grantOneRole_found (m r : String) (p : Policy) (b : Binding)
    (h : findBinding p r = some b) :
    (grantOneRole m r p).map Binding.role = p.map Binding.role := by
  induction p with
  | nil => simp [findBinding] at h
  | cons b0 bs ih =>
    by_cases hb : b0.role = r
    · simp [grantOneRole, hb, addMember_role]
    · simp only [findBinding, if_neg hb] at h
      simp [grantOneRole, hb, ih h]

theorem roles_grantOneRole_notfound (m r : String) (p : Policy)
    (h : findBinding p r = none) :
    (grantOneRole m r p).map Binding.role = p.map Binding.role ++ [r] := by
  induction p with
  | nil => simp [grantOneRole]
  | cons b0 bs ih =>
    by_cases hb : b0.role = r
    · simp [findBinding, hb] at h
    · simp only [findBinding, if_neg hb] at h
      simp [grantOneRole, hb, ih h]

theorem members_nodup_grantOneRole (m r : String) (p : Policy)
    (h : ∀ b ∈ p, b.members.Nodup) :
    ∀ b ∈ grantOneRole m r p, b.members.Nodup := by
  induction p with
  | nil =>
    intro b hb
    simp only [grantOneRole, List.mem_singleton] at hb
    subst hb; simp
  | cons b0 bs ih =>
    intro b hb
    by_cases hr : b0.role = r
    · simp only [grantOneRole, if_pos hr, List.mem_cons] at hb
      rcases hb with rfl | hb
      · have h0 := h b0 (List.mem_cons_self _ _)
        unfold addMember
        split
        · exact h0
        · rename_i hm
          simp [List.nodup_append, h0, hm]
      · exact h b (List.mem_cons_of_mem _ hb)
    · simp only [grantOneRole, if_neg hr, List.mem_cons] at hb
      rcases hb with rfl | hb
      · exact h b (List.mem_cons_self _ _)
      · exact ih (fun x hx => h x (List.mem_cons_of_mem _ hx)) b hb

theorem policyInvariant_grantOneRole (m r : String) (p : Policy)
    (h : policyInvariant p) : policyInvariant (grantOneRole m r p) := by
  obtain ⟨hroles, hmem⟩ := h
  constructor
  · cases hf : findBinding p r with
    | some b => rw [roles_grantOneRole_found m r p b hf]; exact hroles
    | none =>
      rw [roles_grantOneRole_notfound m r p hf]
      have hr : r ∉ p.map Binding.role := (findBinding_eq_none_iff p r).mp hf
      simp [List.nodup_append, hroles, hr]
  · exact members_nodup_grantOneRole m r p hmem

end Gcputils

namespace Authn
theorem newValidator_ok_fields (conf : GcpIdentifyPlatformAuthenticatorConfig)
    (pm : List (String × Bool)) (v : GcpIdentifyPlatformAuthenticator)
    (hv : NewGcpIdentityPlatformValidator conf pm = .ok v) :
    v.expectedIssuer = "https://securetoken.google.com/" ++ conf.gcpProjectId ∧
    v.expectedAudience = conf.expectedAudience ∧ v.publicMethods = pm ∧
    isBlank conf.gcpProjectId = false ∧ isBlank conf.expectedAudience = false := by
  unfold NewGcpIdentityPlatformValidator at hv
  by_cases h1 : isBlank conf.gcpProjectId
  · rw [if_pos h1] at hv; exact absurd hv (by simp)
  · by_cases h2 : isBlank conf.expectedAudience
    · rw [if_neg h1, if_pos h2] at hv; exact absurd hv (by simp)
    · rw [if_neg h1, if_neg h2] at hv
      injection hv with hv
      subst hv
      exact ⟨rfl, rfl, rfl, Bool.eq_false_iff.mpr h1, Bool.eq_false_iff.mpr h2⟩

theorem authenticate_nonpublic (v : GcpIdentifyPlatformAuthenticator)
    (nv : Except GoError TokenValidator) (ctx : Ctx)
    (hnp : ∀ mth, ctx.method = some mth → v.publicMethods.lookup mth = none) :
    Authenticate v nv ctx = authenticateToken v nv ctx := by
  unfold Authenticate
  cases hm : ctx.method with
  | none => rfl
  | some mth => simp [hnp mth hm]

end Authn

namespace Environ
theorem unmarshal_foldl_eq_filterMap (env : List (String × String)) (ps : Parsers) :
    ∀ (fields : List StructField) (acc : List GoError),
      fields.foldl
        (fun errs f =>
          match fieldError env ps f with
          | some e => errs ++ [e]
          | none => errs) acc =
      acc ++ fields.filterMap (fieldError env ps) := by
  intro fields
  induction fields with
  | nil => intro acc; simp
  | cons f fs ih =>
    intro acc
    cases hf : fieldError env ps f with
    | none => simp [List.foldl_cons, hf, List.filterMap_cons, ih]
    | some e => simp [List.foldl_cons, hf, List.filterMap_cons, ih]

end Environ

/-- C1: the grant merge of `grantRolesToServiceAccount` is idempotent — applying
it twice with identical member and role list yields the same policy as applying
it once — and for every role in the requested list the resulting member set is
the pre-existing member set of that role unioned with the new member. -/
theorem grantMerge_idempotent_union (m : String) (roles : List String) (p : Gcputils.Policy) :
    Gcputils.grantMerge m roles (Gcputils.grantMerge m roles p) =
      Gcputils.grantMerge m roles p ∧
    ∀ r ∈ roles, ∀ x,
      x ∈ Gcputils.membersOfRole (Gcputils.grantMerge m roles p) r ↔
        x ∈ Gcputils.membersOfRole p r ∨ x = m := by
  constructor
  · apply Gcputils.grantMerge_of_settled
    intro r hr
    rw [Gcputils.mem_membersOfRole_grantMerge]
    exact Or.inr ⟨hr, rfl⟩
  · intro r hr x
    rw [Gcputils.mem_membersOfRole_grantMerge]
    constructor
    · rintro (h | ⟨-, rfl⟩)
      · exact Or.inl h
      · exact Or.inr rfl
    · rintro (h | rfl)
      · exact Or.inl h
      · exact Or.inr ⟨hr, rfl⟩

/-- Witness for C1 at a concrete policy, member and role list. -/
theorem grantMerge_idempotent_union_witness :
    "roles/viewer" ∈ ["roles/viewer", "roles/editor"] ∧
    ∀ x, x ∈ Gcputils.membersOfRole
        (Gcputils.grantMerge "serviceAccount:a@x.iam"
          ["roles/viewer", "roles/editor"]
          [⟨"roles/viewer", ["serviceAccount:b@x.iam"]⟩]) "roles/viewer" ↔
      x ∈ Gcputils.membersOfRole
        [⟨"roles/viewer", ["serviceAccount:b@x.iam"]⟩] "roles/viewer" ∨
      x = "serviceAccount:a@x.iam" := by
  refine ⟨by decide, ?_⟩
  exact (grantMerge_idempotent_union "serviceAccount:a@x.iam"
      ["roles/viewer", "roles/editor"]
      [⟨"roles/viewer", ["serviceAccount:b@x.iam"]⟩]).2
    "roles/viewer" (by decide)

/-- C6: the grant merge preserves every pre-existing binding in its original
position with its pre-existing members in their original order; the only
changes are appending the new member at the end of an existing binding's
member list (when absent) or appending new bindings, whose member list is
exactly the new member, at the end of the binding sequence. -/
theorem grantMerge_order_preservation (m : String) (roles : List String)
    (p : Gcputils.Policy) :
    ∃ q₁ q₂, Gcputils.grantMerge m roles p = q₁ ++ q₂ ∧
      List.Forall₂ (Gcputils.bindingExtends m) p q₁ ∧
      ∀ b ∈ q₂, b.members = [m] := by
  have h0 : List.Forall₂ (Gcputils.bindingExtends m) p p :=
    List.forall₂_same.mpr fun b _ => ⟨rfl, Or.inl rfl⟩
  obtain ⟨q₁, q₂, hEq, hF, hN⟩ :=
    Gcputils.grantMerge_ext m roles p p [] h0 (by simp)
  rw [List.append_nil] at hEq
  exact ⟨q₁, q₂, hEq, hF, hN⟩

/-- Witness for C6 at a concrete policy, member and role list. -/
theorem grantMerge_order_preservation_witness :
    ∃ q₁ q₂,
      Gcputils.grantMerge "serviceAccount:a@x.iam" ["roles/editor"]
          [⟨"roles/viewer", ["serviceAccount:b@x.iam"]⟩] = q₁ ++ q₂ ∧
      List.Forall₂ (Gcputils.bindingExtends "serviceAccount:a@x.iam")
          [⟨"roles/viewer", ["serviceAccount:b@x.iam"]⟩] q₁ ∧
      ∀ b ∈ q₂, b.members = ["serviceAccount:a@x.iam"] :=
  grantMerge_order_preservation "serviceAccount:a@x.iam" ["roles/editor"]
    [⟨"roles/viewer", ["serviceAccount:b@x.iam"]⟩]

/-- C7: the grant merge preserves the AuthorizationPolicy invariant — on any
input policy in which each role appears in at most one binding and no member
list has duplicates, the merged policy again has both properties. -/
theorem grantMerge_preserves_invariant (m : String) (roles : List String)
    (p : Gcputils.Policy) (h : Gcputils.policyInvariant p) :
    Gcputils.policyInvariant (Gcputils.grantMerge m roles p) := by
  induction roles generalizing p with
  | nil => exact h
  | cons r rest ih =>
    exact ih (Gcputils.grantOneRole m r p)
      (Gcputils.policyInvariant_grantOneRole m r p h)


/-- C2: whenever identity creation succeeds and key creation fails,
`NewM2MServiceAccount` issues exactly one delete call, targeting the created
identity, and returns the wrapped key-creation error. The client's delete
behavior is universally quantified and absent from the conclusion, so the
returned error is the same whether the delete succeeds or fails. -/
theorem newM2MServiceAccount_compensation
    (c : Gcputils.IamClient) (projectID clientID displayName : String)
    (sa : Gcputils.ServiceAccount) (e : GoError)
    (hsa : c.createServiceAccount
      (Gcputils.mkCreateServiceAccountRequest projectID clientID displayName) =
        .ok sa)
    (hkey : c.createServiceAccountKey
      (Gcputils.mkCreateServiceAccountKeyRequest sa.name) = .error e) :
    (Gcputils.NewM2MServiceAccount (.ok c) projectID clientID displayName).1 =
      .error (.wrap "CreateServiceAccountKey" e) ∧
    (Gcputils.NewM2MServiceAccount (.ok c) projectID clientID displayName).2.filter
        Gcputils.IamCall.isDelete = [.deleteSA sa.name] := by
  simp [Gcputils.NewM2MServiceAccount, hsa, hkey, List.filter,
    Gcputils.IamCall.isDelete]

/-- Witness for C2: a concrete client whose key creation and compensating
delete both fail; the caller still sees the wrapped key-creation error and
exactly one delete call is issued. -/
theorem newM2MServiceAccount_compensation_witness :
    let c : Gcputils.IamClient :=
      { createServiceAccount := fun _ =>
          .ok ⟨"projects/p/serviceAccounts/x@p.iam", "x@p.iam", "demo"⟩
        createServiceAccountKey := fun _ => .error (.msg "quota exceeded")
        deleteServiceAccount := fun _ => .error (.msg "delete failed") }
    (Gcputils.NewM2MServiceAccount (.ok c) "p" "x" "demo").1 =
      .error (.wrap "CreateServiceAccountKey" (.msg "quota exceeded")) ∧
    (Gcputils.NewM2MServiceAccount (.ok c) "p" "x" "demo").2.filter
        Gcputils.IamCall.isDelete =
      [.deleteSA "projects/p/serviceAccounts/x@p.iam"] :=
  newM2MServiceAccount_compensation _ "p" "x" "demo"
    ⟨"projects/p/serviceAccounts/x@p.iam", "x@p.iam", "demo"⟩
    (.msg "quota exceeded") rfl rfl

/-- C8 (refuted, code bug): on a successful run the `PrivateKey` field holds
the key material bytes verbatim (`string(generatedKey.PrivateKeyData)`, line
93), not their Base64 encoding, contradicting the field's own doc comment
("PrivateKey is Base64 encoded private key data"); at key material `[0]` the
stored value is `[0]`, which differs from its Base64 encoding "AA==". -/
theorem newM2MServiceAccount_privateKey_not_base64 :
    let c : Gcputils.IamClient :=
      { createServiceAccount := fun _ =>
          .ok ⟨"projects/p/serviceAccounts/x@p.iam", "x@p.iam", "demo"⟩
        createServiceAccountKey := fun req => .ok ⟨req.name ++ "/keys/k1", [0]⟩
        deleteServiceAccount := fun _ => .ok () }
    ∃ acc, (Gcputils.NewM2MServiceAccount (.ok c) "p" "x" "demo").1 = .ok acc ∧
      acc.privateKey = [0] ∧ acc.privateKey ≠ Gcputils.base64Encode [0] :=
  ⟨{ email := "x@p.iam"
     privateKey := [0]
     keyID := "projects/p/serviceAccounts/x@p.iam/keys/k1"
     displayName := "demo"
     serviceAccountID := "x" }, rfl, rfl, by decide⟩

/-- Witness for C7 at a concrete policy. -/
theorem grantMerge_preserves_invariant_witness :
    Gcputils.policyInvariant [⟨"roles/viewer", ["serviceAccount:b@x.iam"]⟩] ∧
    Gcputils.policyInvariant
      (Gcputils.grantMerge "serviceAccount:a@x.iam"
        ["roles/viewer", "roles/editor"]
        [⟨"roles/viewer", ["serviceAccount:b@x.iam"]⟩]) :=
  ⟨by decide,
    grantMerge_preserves_invariant "serviceAccount:a@x.iam"
      ["roles/viewer", "roles/editor"]
      [⟨"roles/viewer", ["serviceAccount:b@x.iam"]⟩] (by decide)⟩

/-- C5: constructing the authenticator with a blank (empty or whitespace-only)
project id or expected audience fails with `ErrProjectIdMissing` or
`ErrExpectedAudMissing` and yields no authenticator; a successful construction
is only possible when both are non-blank, and then the `expectedIssuer` equals
`"https://securetoken.google.com/" ++ GcpProjectId`. -/
theorem newGcpIdentityPlatformValidator_validation
    (conf : Authn.GcpIdentifyPlatformAuthenticatorConfig)
    (pm : List (String × Bool)) :
    ((Authn.isBlank conf.gcpProjectId = true ∨
        Authn.isBlank conf.expectedAudience = true) →
      Authn.NewGcpIdentityPlatformValidator conf pm =
          .error Authn.ErrProjectIdMissing ∨
      Authn.NewGcpIdentityPlatformValidator conf pm =
          .error Authn.ErrExpectedAudMissing) ∧
    (∀ v, Authn.NewGcpIdentityPlatformValidator conf pm = .ok v →
      v.expectedIssuer =
          "https://securetoken.google.com/" ++ conf.gcpProjectId ∧
      v.expectedAudience = conf.expectedAudience ∧
      v.publicMethods = pm ∧
      Authn.isBlank conf.gcpProjectId = false ∧
      Authn.isBlank conf.expectedAudience = false) := by
  constructor
  · intro h
    unfold Authn.NewGcpIdentityPlatformValidator
    by_cases h1 : Authn.isBlank conf.gcpProjectId
    · left; rw [if_pos h1]
    · rcases h with h | h
      · exact absurd h h1
      · right; rw [if_neg h1, if_pos h]
  · intro v hv
    exact Authn.newValidator_ok_fields conf pm v hv

/-- Witness for C5: a whitespace-only project id is rejected, and a valid
configuration produces the derived issuer. -/
theorem newGcpIdentityPlatformValidator_validation_witness :
    (Authn.isBlank " " = true ∨ Authn.isBlank "aud" = true) ∧
    (Authn.NewGcpIdentityPlatformValidator ⟨"aud", " "⟩ [] =
        .error Authn.ErrProjectIdMissing ∨
     Authn.NewGcpIdentityPlatformValidator ⟨"aud", " "⟩ [] =
        .error Authn.ErrExpectedAudMissing) :=
  ⟨Or.inl (by decide),
    (newGcpIdentityPlatformValidator_validation ⟨"aud", " "⟩ []).1
      (Or.inl (by decide))⟩

/-- C4: for a call whose resolved method name is a key of `publicMethods`,
`Authenticate` returns the input context unchanged with no error. The bearer
token and the validator constructor are universally quantified and do not
appear in the conclusion: the bypass never extracts the token and never calls
the validator. -/
theorem authenticate_public_bypass
    (v : Authn.GcpIdentifyPlatformAuthenticator)
    (nv : Except GoError Authn.TokenValidator) (ctx : Authn.Ctx) (mth : String)
    (hm : ctx.method = some mth)
    (hpub : (v.publicMethods.lookup mth).isSome) :
    Authn.Authenticate v nv ctx = .ok ctx := by
  unfold Authn.Authenticate
  rw [hm]
  simp [hpub]

/-- Witness for C4: a public method bypasses authentication even when the
call carries no token and the validator is unavailable. -/
theorem authenticate_public_bypass_witness :
    let v : Authn.GcpIdentifyPlatformAuthenticator :=
      { expectedAudience := "aud"
        expectedIssuer := "https://securetoken.google.com/proj"
        publicMethods := [("/svc/Ping", true)] }
    let ctx : Authn.Ctx :=
      { method := some "/svc/Ping", bearerToken := none, values := [] }
    Authn.Authenticate v (.error (.msg "validator down")) ctx = .ok ctx :=
  authenticate_public_bypass _ _ _ "/svc/Ping" rfl (by decide)

/-- C10: when the method name cannot be resolved from the call context,
`Authenticate` never applies the public-method bypass — it runs the
token-validation path regardless of the contents of `publicMethods` — and if
the call carries no bearer token it is rejected with `Unauthenticated`
("Authorization token not provided"). -/
theorem authenticate_unresolved_method_requires_token
    (v : Authn.GcpIdentifyPlatformAuthenticator)
    (nv : Except GoError Authn.TokenValidator) (ctx : Authn.Ctx)
    (hm : ctx.method = none) :
    Authn.Authenticate v nv ctx = Authn.authenticateToken v nv ctx ∧
    (ctx.bearerToken = none →
      Authn.Authenticate v nv ctx =
        .error ⟨.unauthenticated, "Authorization token not provided"⟩) := by
  have hred : Authn.Authenticate v nv ctx = Authn.authenticateToken v nv ctx := by
    unfold Authn.Authenticate
    rw [hm]
  refine ⟨hred, fun htok => ?_⟩
  rw [hred]
  unfold Authn.authenticateToken
  simp [Authn.authFromMD, htok]

/-- Witness for C10: the method in the context is unresolved while the
public-methods set is non-empty; the call is still rejected for lack of a
token. -/
theorem authenticate_unresolved_method_requires_token_witness :
    let v : Authn.GcpIdentifyPlatformAuthenticator :=
      { expectedAudience := "aud"
        expectedIssuer := "https://securetoken.google.com/proj"
        publicMethods := [("/svc/Ping", true)] }
    let ctx : Authn.Ctx :=
      { method := none, bearerToken := none, values := [] }
    Authn.Authenticate v (.error (.msg "validator down")) ctx =
      .error ⟨.unauthenticated, "Authorization token not provided"⟩ :=
  (authenticate_unresolved_method_requires_token _ _ _ rfl).2 rfl

/-- C3: for a non-public call on an authenticator built by
`NewGcpIdentityPlatformValidator`, a token that fails validation against the
expected audience is rejected with `Unauthenticated` and no context, a token
that validates but whose issuer differs from
`"https://securetoken.google.com/" ++ projectId` is rejected with
`Unauthenticated` and no context, and a token passing both checks yields the
input context augmented with the payload's claims, verbatim, under the fixed
key `"jwt_claims"`. -/
theorem authenticate_issuer_audience_enforcement
    (conf : Authn.GcpIdentifyPlatformAuthenticatorConfig)
    (pm : List (String × Bool)) (v : Authn.GcpIdentifyPlatformAuthenticator)
    (validator : Authn.TokenValidator) (ctx : Authn.Ctx) (token : String)
    (hv : Authn.NewGcpIdentityPlatformValidator conf pm = .ok v)
    (hnp : ∀ mth, ctx.method = some mth → v.publicMethods.lookup mth = none)
    (htok : ctx.bearerToken = some token) :
    (∀ e, validator.validate token v.expectedAudience = .error e →
      Authn.Authenticate v (.ok validator) ctx =
        .error ⟨.unauthenticated, "Invalid authentication token"⟩) ∧
    (∀ payload, validator.validate token v.expectedAudience = .ok payload →
      (payload.issuer ≠ "https://securetoken.google.com/" ++ conf.gcpProjectId →
        Authn.Authenticate v (.ok validator) ctx =
          .error ⟨.unauthenticated, "Invalid token issuer"⟩) ∧
      (payload.issuer = "https://securetoken.google.com/" ++ conf.gcpProjectId →
        Authn.Authenticate v (.ok validator) ctx =
          .ok { ctx with
            values := (Authn.ClaimsContextKey, payload.claims) :: ctx.values })) := by
  obtain ⟨hIss, -, -, -, -⟩ := Authn.newValidator_ok_fields conf pm v hv
  have hred := Authn.authenticate_nonpublic v (.ok validator) ctx hnp
  constructor
  · intro e he
    rw [hred]
    unfold Authn.authenticateToken
    simp [Authn.authFromMD, htok, he]
  · intro payload hp
    constructor
    · intro hne
      rw [hred]
      unfold Authn.authenticateToken
      simp [Authn.authFromMD, htok, hp, hIss, hne]
    · intro heq
      rw [hred]
      unfold Authn.authenticateToken
      simp [Authn.authFromMD, htok, hp, hIss, heq]

/-- Witness for C3: a concrete non-public call whose token validates with the
matching issuer; the claims are attached under the fixed key. -/
theorem authenticate_issuer_audience_enforcement_witness :
    let v : Authn.GcpIdentifyPlatformAuthenticator :=
      { expectedAudience := "aud"
        expectedIssuer := "https://securetoken.google.com/proj"
        publicMethods := [] }
    let validator : Authn.TokenValidator :=
      { validate := fun _ _ =>
          .ok { issuer := "https://securetoken.google.com/proj"
                subject := "sub"
                claims := [("email", "a@x.iam")] } }
    let ctx : Authn.Ctx :=
      { method := some "/svc/Private", bearerToken := some "tok", values := [] }
    Authn.Authenticate v (.ok validator) ctx =
      .ok { ctx with
        values := [(Authn.ClaimsContextKey, [("email", "a@x.iam")])] } :=
  ((authenticate_issuer_audience_enforcement ⟨"aud", "proj"⟩ [] _ _ _ "tok"
      rfl (fun _ _ => rfl) rfl).2
    { issuer := "https://securetoken.google.com/proj"
      subject := "sub"
      claims := [("email", "a@x.iam")] } rfl).2 rfl

/-- C9: `Unmarshal` never short-circuits — its result is determined by the
per-field error of every field in order, and it returns the join of all the
per-field errors when any occurred and nil otherwise; in particular a field
error never prevents the remaining fields from contributing theirs. -/
theorem unmarshal_collects_all_errors (env : List (String × String))
    (ps : Environ.Parsers) (fields : List Environ.StructField) :
    (Environ.Unmarshal env ps fields =
      match fields.filterMap (Environ.fieldError env ps) with
      | [] => none
      | errs => some (.join errs)) ∧
    (∀ f rest e, Environ.fieldError env ps f = some e →
      Environ.Unmarshal env ps (f :: rest) =
        some (.join (e :: rest.filterMap (Environ.fieldError env ps)))) := by
  constructor
  · unfold Environ.Unmarshal
    rw [Environ.unmarshal_foldl_eq_filterMap]
    simp only [List.nil_append]
    generalize fields.filterMap (Environ.fieldError env ps) = errs
    cases errs with
    | nil => simp
    | cons e es => simp
  · intro f rest e hf
    unfold Environ.Unmarshal
    simp only [List.foldl_cons, hf]
    rw [Environ.unmarshal_foldl_eq_filterMap]
    simp

/-- Witness for C9: the first field has a malformed tag, yet the second
field's missing required variable is still collected and both errors are
joined. -/
theorem unmarshal_collects_all_errors_witness :
    let ps : Environ.Parsers :=
      { parseBool := fun _ => .ok ()
        parseFloat := fun _ _ => .ok ()
        parseInt := fun _ _ _ => .ok () }
    let f1 : Environ.StructField :=
      { canSet := true, envTag := some "A,B,C", kind := .str, typeName := "string" }
    let f2 : Environ.StructField :=
      { canSet := true, envTag := some "MISSING", kind := .str, typeName := "string" }
    Environ.Unmarshal [] ps [f1, f2] =
      some (.join
        [.wrap "env struct tag \x27A,B,C\x27 malformed" Environ.ErrMalformedTag,
         .wrap "required \x27MISSING\x27 missing" Environ.ErrMissingEnvVariable]) := by
  exact (unmarshal_collects_all_errors []
      ⟨fun _ => .ok (), fun _ _ => .ok (), fun _ _ _ => .ok ()⟩
      [⟨true, some "A,B,C", .str, "string"⟩,
       ⟨true, some "MISSING", .str, "string"⟩]).2
    ⟨true, some "A,B,C", .str, "string"⟩
    [⟨true, some "MISSING", .str, "string"⟩]
    (.wrap "env struct tag \x27A,B,C\x27 malformed" Environ.ErrMalformedTag)
    rfl
